import Mathlib

/-!
Verification of the Duration/TimeUnit arithmetic and rendering core
(`src/duration.rs`) against its specification.

The core stores every `Duration` as a single signed scalar of seconds in the
collaborator type `Decimal` (an extended-precision exact decimal, re-exported
from the `fraction` collaborator which is not part of `src/`).  We embed
`Decimal` as the rational numbers `ℚ` and embed its operations as explicit
executable functions (`dadd`, `dsub`, `dmul`, `ddiv`, `dneg`, `dabs`,
`dtrunc`, `decRepr`), because the collaborator's contract is exact decimal
arithmetic.  Bridge lemmas connect them to the ring operations of `ℚ`.
-/

namespace Hifitime

/-- Modelled from the spec: the extended-precision scalar collaborator's exact
addition (`Decimal` is absent from `src/`; spec section 2 item 1 gives its
contract as exact arithmetic on decimals, embedded here as `ℚ`). -/
def dadd (a b : ℚ) : ℚ := mkRat (a.num * b.den + b.num * a.den) (a.den * b.den)

/-- Modelled from the spec: the scalar collaborator's exact subtraction. -/
def dsub (a b : ℚ) : ℚ := mkRat (a.num * b.den - b.num * a.den) (a.den * b.den)

/-- Modelled from the spec: the scalar collaborator's exact multiplication. -/
def dmul (a b : ℚ) : ℚ := mkRat (a.num * b.num) (a.den * b.den)

/-- Modelled from the spec: the scalar collaborator's exact division. -/
def ddiv (a b : ℚ) : ℚ := Rat.divInt (a.num * b.den) (a.den * b.num)

/-- Modelled from the spec: the scalar collaborator's negation. -/
def dneg (a : ℚ) : ℚ := -a

/-- Modelled from the spec: the scalar collaborator's absolute value. -/
def dabs (a : ℚ) : ℚ := if a < 0 then -a else a

/-- Modelled from the spec: the scalar collaborator's `floor`.  The spec's
design notes describe it as rounding toward negative infinity, but the
collaborator applies the unsigned ratio's floor and keeps the sign, i.e. it
truncates toward zero; this behaviour is pinned by the repository's own test
assertions in `src/duration.rs` (`fn time_unit`), whose expected strings such
as `"-5 h 0 min 0 s 256 ms"` are only produced by truncation toward zero. -/
def dtrunc (q : ℚ) : ℚ :=
if q < 0 then -(((q.num.natAbs / q.den : ℕ) : ℚ)) else ((q.num.natAbs / q.den : ℕ) : ℚ)

/-- Modelled from the spec: the fractional-digit expansion used by the scalar
collaborator's textual display (finite precision, trailing zeros omitted). -/
def fracDigits : ℕ → ℚ → List Char
| 0, _ => []
| Nat.succ k, q =>
  if q = 0 then []
  else
    let q10 := dmul q 10
    let dgt := q10.num.natAbs / q10.den
    Nat.digitChar dgt :: fracDigits k (dsub q10 ((dgt : ℕ) : ℚ))

/-- Modelled from the spec: the magnitude part of the scalar collaborator's
textual display (integer part in decimal, then a dot and the fractional
digits when the value is not an integer). -/
def decReprNN (q : ℚ) : String :=
let ip := q.num.natAbs / q.den
let fr := dsub (dabs q) ((ip : ℕ) : ℚ)
if fr = 0 then Nat.repr ip else Nat.repr ip ++ "." ++ String.mk (fracDigits 32 fr)

/-- Modelled from the spec: the scalar collaborator's textual display, a
leading minus sign for negative values followed by the magnitude. -/
def decRepr (q : ℚ) : String := if q < 0 then "-" ++ decReprNN q else decReprNN q

/-- Modelled from the spec: seconds per day (spec section 3 unit table). -/
def SECONDS_PER_DAY : ℚ := 86400

/-- Modelled from the spec: seconds per hour (spec section 3 unit table). -/
def SECONDS_PER_HOUR : ℚ := 3600

/-- Modelled from the spec: seconds per minute (spec section 3 unit table). -/
def SECONDS_PER_MINUTE : ℚ := 60

/-- The closed unit enumeration of `src/duration.rs`. -/
inductive TimeUnit where
| Day
| Hour
| Minute
| Second
| Millisecond
| Nanosecond
deriving DecidableEq

/-- A `Duration` stores a single scalar of seconds (`src/duration.rs`). -/
structure Duration where
val : ℚ
deriving DecidableEq

/-- `TimeUnit::in_seconds` from `src/duration.rs`. -/
def TimeUnit.in_seconds : TimeUnit → ℚ
| TimeUnit.Day => SECONDS_PER_DAY
| TimeUnit.Hour => SECONDS_PER_HOUR
| TimeUnit.Minute => SECONDS_PER_MINUTE
| TimeUnit.Second => 1
| TimeUnit.Millisecond => mkRat 1 1000
| TimeUnit.Nanosecond => mkRat 1 1000000000

/-- `TimeUnit::from_seconds` from `src/duration.rs`: `1 / in_seconds()`. -/
def TimeUnit.from_seconds (u : TimeUnit) : ℚ := ddiv 1 u.in_seconds

/-- `Duration::from_days` from `src/duration.rs`. -/
def Duration.from_days (days : ℚ) : Duration := ⟨dmul days SECONDS_PER_DAY⟩

/-- `Duration::from_hours` from `src/duration.rs`. -/
def Duration.from_hours (hours : ℚ) : Duration := ⟨dmul hours SECONDS_PER_HOUR⟩

/-- `Duration::from_minutes` from `src/duration.rs`. -/
def Duration.from_minutes (minutes : ℚ) : Duration := ⟨dmul minutes SECONDS_PER_MINUTE⟩

/-- `Duration::from_seconds` from `src/duration.rs`. -/
def Duration.from_seconds (seconds : ℚ) : Duration := ⟨seconds⟩

/-- `Duration::from_millseconds` from `src/duration.rs` (`ms * 1e-3`). -/
def Duration.from_millseconds (ms : ℚ) : Duration := ⟨dmul ms (mkRat 1 1000)⟩

/-- `Duration::from_nanoseconds` from `src/duration.rs` (`ns * 1e-9`). -/
def Duration.from_nanoseconds (ns : ℚ) : Duration := ⟨dmul ns (mkRat 1 1000000000)⟩

/-- The `impl Mul<f64> for TimeUnit` instance generated by
`impl_ops_for_type!` in `src/duration.rs`; a floating quantity is embedded by
its exactly represented rational value. -/
def TimeUnit.mulF64 : TimeUnit → ℚ → Duration
| TimeUnit.Day, q => Duration.from_days q
| TimeUnit.Hour, q => Duration.from_hours q
| TimeUnit.Minute, q => Duration.from_minutes q
| TimeUnit.Second, q => Duration.from_seconds q
| TimeUnit.Millisecond, q => Duration.from_millseconds q
| TimeUnit.Nanosecond, q => Duration.from_nanoseconds q

/-- The `impl Mul<i64> for TimeUnit` instance (and the other signed integer
widths) generated by `impl_ops_for_type!` in `src/duration.rs`. -/
def TimeUnit.mulI64 : TimeUnit → ℤ → Duration
| TimeUnit.Day, q => Duration.from_days (q : ℚ)
| TimeUnit.Hour, q => Duration.from_hours (q : ℚ)
| TimeUnit.Minute, q => Duration.from_minutes (q : ℚ)
| TimeUnit.Second, q => Duration.from_seconds (q : ℚ)
| TimeUnit.Millisecond, q => Duration.from_millseconds (q : ℚ)
| TimeUnit.Nanosecond, q => Duration.from_nanoseconds (q : ℚ)

/-- The `impl Mul<u128> for TimeUnit` instance (and the other unsigned
integer widths) generated by `impl_ops_for_type!` in `src/duration.rs`. -/
def TimeUnit.mulU128 : TimeUnit → ℕ → Duration
| TimeUnit.Day, q => Duration.from_days (q : ℚ)
| TimeUnit.Hour, q => Duration.from_hours (q : ℚ)
| TimeUnit.Minute, q => Duration.from_minutes (q : ℚ)
| TimeUnit.Second, q => Duration.from_seconds (q : ℚ)
| TimeUnit.Millisecond, q => Duration.from_millseconds (q : ℚ)
| TimeUnit.Nanosecond, q => Duration.from_nanoseconds (q : ℚ)

/-- `Duration::from_f64` from `src/duration.rs`: `unit * value`. -/
def Duration.from_f64 (value : ℚ) (unit : TimeUnit) : Duration := unit.mulF64 value

/-- `impl Add for Duration` from `src/duration.rs`. -/
instance : Add Duration := ⟨fun a b => ⟨dadd a.val b.val⟩⟩

/-- `impl Sub for Duration` from `src/duration.rs`. -/
instance : Sub Duration := ⟨fun a b => ⟨dsub a.val b.val⟩⟩

/-- `Duration::in_unit` from `src/duration.rs`: `self.0 * unit.from_seconds()`. -/
def Duration.in_unit (d : Duration) (u : TimeUnit) : ℚ := dmul d.val u.from_seconds

/-- The `days` component of the default renderer (`fmt::Display`,
`src/duration.rs`): `self.in_unit(Day).floor()`. -/
def dispDays (d : Duration) : ℚ := dtrunc (d.in_unit TimeUnit.Day)

/-- The `hours` component of the default renderer:
`self.in_unit(Hour).floor() - days * 24`. -/
def dispHours (d : Duration) : ℚ :=
dsub (dtrunc (d.in_unit TimeUnit.Hour)) (dmul (dispDays d) 24)

/-- The `minutes` component of the default renderer:
`self.in_unit(Minute).floor() - self.in_unit(Hour).floor() * 60`. -/
def dispMinutes (d : Duration) : ℚ :=
dsub (dtrunc (d.in_unit TimeUnit.Minute)) (dmul (dtrunc (d.in_unit TimeUnit.Hour)) 60)

/-- The `seconds` component of the default renderer:
`self.in_unit(Second).floor() - self.in_unit(Minute).floor() * 60`. -/
def dispSeconds (d : Duration) : ℚ :=
dsub (dtrunc (d.in_unit TimeUnit.Second)) (dmul (dtrunc (d.in_unit TimeUnit.Minute)) 60)

/-- The `milli` component of the default renderer:
`self.in_unit(Millisecond).floor() - self.in_unit(Second).floor() * 1000`. -/
def dispMilli (d : Duration) : ℚ :=
dsub (dtrunc (d.in_unit TimeUnit.Millisecond)) (dmul (dtrunc (d.in_unit TimeUnit.Second)) 1000)

/-- The `nano` component of the default renderer:
`self.in_unit(Nanosecond) - self.in_unit(Millisecond).floor() * 1e6`. -/
def dispNano (d : Duration) : ℚ :=
dsub (d.in_unit TimeUnit.Nanosecond) (dmul (dtrunc (d.in_unit TimeUnit.Millisecond)) 1000000)

/-- The default textual renderer, `impl fmt::Display for Duration` from
`src/duration.rs`, transcribed branch for branch.  The booleans `p1`–`p4`
are the successive values of the source's `print_all` flag (the source does
not update the flag after printing the millisecond field of the final
branch, which is why the nanosecond field is printed under `p4`). -/
def render (d : Duration) : String :=
let days := dispDays d
let hours := dispHours d
let minutes := dispMinutes d
let seconds := dispSeconds d
let milli := dispMilli d
let nano := dispNano d
let is_neg := decide (d.val < 0)
let p1 := decide (0 < dabs days)
let s1 := if p1 then decRepr days ++ " days " else ""
let p2 := decide (0 < dabs hours) || p1
let s2 := if p2 then s1 ++ decRepr (if is_neg && p1 then dmul hours (-1) else hours) ++ " h " else s1
let p3 := decide (0 < dabs minutes) || p2
let s3 := if p3 then s2 ++ decRepr (if is_neg && p2 then dmul minutes (-1) else minutes) ++ " min " else s2
if dabs milli = 0 ∧ dabs nano = 0 then
  s3 ++ decRepr (if is_neg && p3 then dmul seconds (-1) else seconds) ++ " s"
else
  let p4 := decide (0 < dabs seconds) || p3
  let s4 := if p4 then s3 ++ decRepr (if is_neg && p3 then dmul seconds (-1) else seconds) ++ " s " else s3
  if nano = 0 ∨ (is_neg = true ∧ dmul nano (-1) ≤ 0) then
    s4 ++ decRepr (if is_neg && p4 then dmul milli (-1) else milli) ++ " ms"
  else
    let s5 := if decide (0 < dabs milli) || p4 then s4 ++ decRepr (if is_neg && p4 then dmul milli (-1) else milli) ++ " ms " else s4
    s5 ++ decRepr (if is_neg && p4 then dmul nano (-1) else nano) ++ " ns"

/-- The scientific/auto-unit renderer, `impl fmt::LowerExp for Duration` from
`src/duration.rs`.  The source converts the stored seconds to `f64` before
comparing and printing; the conversion is modelled as exact. -/
def renderLowerExp (d : Duration) : String :=
let seconds_f64 := d.val
let seconds_f64_abs := dabs seconds_f64
if seconds_f64_abs < mkRat 1 100000 then decRepr (dmul seconds_f64 1000000000) ++ " ns"
else if seconds_f64_abs < mkRat 1 100 then decRepr (dmul seconds_f64 1000) ++ " ms"
else if seconds_f64_abs < dmul 3 SECONDS_PER_MINUTE then decRepr seconds_f64 ++ " s"
else if seconds_f64_abs < SECONDS_PER_HOUR then decRepr (ddiv seconds_f64 SECONDS_PER_MINUTE) ++ " min"
else if seconds_f64_abs < SECONDS_PER_DAY then decRepr (ddiv seconds_f64 SECONDS_PER_HOUR) ++ " h"
else decRepr (ddiv seconds_f64 SECONDS_PER_DAY) ++ " days"

/-- The value of `i64::MIN`, the one signed 64-bit integer whose absolute
value is not representable as an `i64`. -/
def i64Min : ℤ := -9223372036854775808

/-- The magnitude computation `x.abs() as u128` performed by
`Duration::from_fraction` on its `i64` arguments; `i64::MIN.abs()` overflows
(a panic in checked builds), modelled as `none`. -/
def i64AbsU128 (n : ℤ) : Option ℕ := if n = i64Min then none else some n.natAbs

/-- Modelled from the spec: the value of the scalar collaborator obtained by
converting a `Fraction` (an exact ratio of unsigned magnitudes, with an
explicit forced-negative constructor).  With a zero denominator the
collaborator does not fail: it yields an infinite value (`inf`, carrying the
ratio's sign), or a NaN-like value when the numerator is also zero. -/
inductive DecimalE where
| fin (q : ℚ)
| inf (neg : Bool)
| nan
deriving DecidableEq

/-- Modelled from the spec: `Fraction::new`, the unsigned-ratio constructor
of the ratio collaborator (absent from `src/`). -/
def Fraction.new (n d : ℕ) : DecimalE :=
if d = 0 then (if n = 0 then DecimalE.nan else DecimalE.inf false)
else DecimalE.fin (mkRat (n : ℤ) d)

/-- Modelled from the spec: `Fraction::new_neg`, the forced-negative ratio
constructor of the ratio collaborator (absent from `src/`). -/
def Fraction.new_neg (n d : ℕ) : DecimalE :=
if d = 0 then (if n = 0 then DecimalE.nan else DecimalE.inf true)
else DecimalE.fin (dneg (mkRat (n : ℤ) d))

/-- Modelled from the spec: multiplying the converted ratio by the positive
finite factor `unit.in_seconds()`; a signed infinity keeps its sign and NaN
is preserved. -/
def DecimalE.mulScalar : DecimalE → ℚ → DecimalE
| DecimalE.fin q, s => DecimalE.fin (dmul q s)
| DecimalE.inf b, _ => DecimalE.inf b
| DecimalE.nan, _ => DecimalE.nan

/-- `Duration::from_fraction` from `src/duration.rs`: resolve the sign from
the signs of the two `i64` arguments, take magnitudes, build the `Fraction`
(forced negative unless both arguments are negative or both are strictly
positive), and multiply by `unit.in_seconds()`.  The result is the inner
scalar value of the constructed `Duration`; `none` models the magnitude
overflow panic at `i64::MIN`. -/
def from_fraction (num denom : ℤ) (unit : TimeUnit) : Option DecimalE :=
match i64AbsU128 num, i64AbsU128 denom with
| some num_u, some denom_u =>
  if (num < 0 ∧ denom < 0) ∨ (0 < num ∧ 0 < denom) then
    some ((Fraction.new num_u denom_u).mulScalar unit.in_seconds)
  else
    some ((Fraction.new_neg num_u denom_u).mulScalar unit.in_seconds)
| _, _ => none

/-- Whether `from_fraction` returns an ordinary finite Duration value. -/
def from_fraction_finite (num denom : ℤ) (u : TimeUnit) : Bool :=
match from_fraction num denom u with
| some (DecimalE.fin _) => true
| _ => false

/-- The signed value that `from_fraction` should produce according to the
specification's sign rule: `sign * (|num| / |denom|) * unit.in_seconds()`. -/
def ffValue (n d : ℤ) (u : TimeUnit) : ℚ :=
(if (n < 0 ∧ d < 0) ∨ (0 < n ∧ 0 < d) then 1 else -1) * ((n.natAbs : ℚ) / (d.natAbs : ℚ)) * u.in_seconds

/-- The negative duration `TimeUnit::Hour * -5 + TimeUnit::Millisecond * -256`
from the repository's own test suite. -/
def durC1neg : Duration := TimeUnit.Hour.mulI64 (-5) + TimeUnit.Millisecond.mulI64 (-256)

/-- The positive duration `TimeUnit::Hour * 5 + TimeUnit::Millisecond * 256`
from the repository's own test suite. -/
def durC1pos : Duration := TimeUnit.Hour.mulI64 5 + TimeUnit.Millisecond.mulI64 256

/-- A negative duration whose only nonzero display components are the
millisecond and nanosecond ones:
`TimeUnit::Millisecond * -256 + TimeUnit::Nanosecond * -100`. -/
def durMsNs : Duration := TimeUnit.Millisecond.mulI64 (-256) + TimeUnit.Nanosecond.mulI64 (-100)

/-- The floor-and-subtract decomposition of the default renderer, stated with
the true floor (rounding toward negative infinity) as the specification
writes it. -/
def C1Concl (d : Duration) : Prop :=
dispDays d = ((⌊d.in_unit TimeUnit.Day⌋ : ℤ) : ℚ) ∧
dispHours d = ((⌊d.in_unit TimeUnit.Hour⌋ : ℤ) : ℚ) - ((⌊d.in_unit TimeUnit.Day⌋ : ℤ) : ℚ) * 24 ∧
dispMinutes d = ((⌊d.in_unit TimeUnit.Minute⌋ : ℤ) : ℚ) - ((⌊d.in_unit TimeUnit.Hour⌋ : ℤ) : ℚ) * 60 ∧
dispSeconds d = ((⌊d.in_unit TimeUnit.Second⌋ : ℤ) : ℚ) - ((⌊d.in_unit TimeUnit.Minute⌋ : ℤ) : ℚ) * 60 ∧
dispMilli d = ((⌊d.in_unit TimeUnit.Millisecond⌋ : ℤ) : ℚ) - ((⌊d.in_unit TimeUnit.Second⌋ : ℤ) : ℚ) * 1000 ∧
dispNano d = d.in_unit TimeUnit.Nanosecond - ((⌊d.in_unit TimeUnit.Millisecond⌋ : ℤ) : ℚ) * 1000000

/-- The sign behaviour of `from_fraction`: the produced scalar, its exact
sign characterisation, and the two sign-symmetry laws. -/
def C3Concl (n d : ℤ) (u : TimeUnit) : Prop :=
from_fraction n d u = some (DecimalE.fin (ffValue n d u)) ∧
(0 < ffValue n d u ↔ n ≠ 0 ∧ ((n < 0 ∧ d < 0) ∨ (0 < n ∧ 0 < d))) ∧
(ffValue n d u < 0 ↔ n ≠ 0 ∧ ¬ ((n < 0 ∧ d < 0) ∨ (0 < n ∧ 0 < d))) ∧
from_fraction (-n) (-d) u = some (DecimalE.fin (ffValue n d u)) ∧
from_fraction n (-d) u = some (DecimalE.fin (-(ffValue n d u)))

/-- The threshold table of the scientific/auto-unit renderer: each band of
the absolute seconds value fixes the printed scaling and unit suffix. -/
def C7Concl (d : Duration) : Prop :=
(|d.val| < 1 / 100000 → renderLowerExp d = decRepr (dmul d.val 1000000000) ++ " ns") ∧
(¬ |d.val| < 1 / 100000 → |d.val| < 1 / 100 → renderLowerExp d = decRepr (dmul d.val 1000) ++ " ms") ∧
(¬ |d.val| < 1 / 100 → |d.val| < 180 → renderLowerExp d = decRepr d.val ++ " s") ∧
(¬ |d.val| < 180 → |d.val| < 3600 → renderLowerExp d = decRepr (ddiv d.val 60) ++ " min") ∧
(¬ |d.val| < 3600 → |d.val| < 86400 → renderLowerExp d = decRepr (ddiv d.val 3600) ++ " h") ∧
(¬ |d.val| < 86400 → renderLowerExp d = decRepr (ddiv d.val 86400) ++ " days")

/-- The default rendering of a strictly positive sub-second duration consists
of the millisecond and/or nanosecond components only: no day, hour, minute or
second field is printed. -/
def C9Concl (d : Duration) : Prop :=
render d = decRepr (dispMilli d) ++ " ms" ∨
render d = decRepr (dispMilli d) ++ " ms " ++ decRepr (dispNano d) ++ " ns" ∨
render d = decRepr (dispNano d) ++ " ns"

/-- The magnitude computations of `from_fraction` succeed and the constructed
Duration value is an ordinary finite scalar. -/
def C10Concl (n d : ℤ) (u : TimeUnit) : Prop :=
i64AbsU128 n = some n.natAbs ∧ i64AbsU128 d = some d.natAbs ∧ from_fraction_finite n d u = true

/-! ## Bridge lemmas between the collaborator operations and the field `ℚ` -/

theorem dadd_eq (a b : ℚ) : dadd a b = a + b := (Rat.add_def' a b).symm

theorem dsub_eq (a b : ℚ) : dsub a b = a - b := (Rat.sub_def' a b).symm

theorem dmul_eq (a b : ℚ) : dmul a b = a * b := by
rw [dmul, Rat.mul_def, Rat.normalize_eq_mkRat]

theorem ddiv_eq (a b : ℚ) : ddiv a b = a / b := by
rcases eq_or_ne b.num 0 with h | h
· have hb : b = 0 := by rwa [Rat.num_eq_zero] at h
  subst hb
  show Rat.divInt (a.num * (0:ℚ).den) (a.den * (0:ℚ).num) = a / 0
  norm_num
· rw [div_eq_mul_inv, Rat.inv_def']
  conv_rhs => rw [← Rat.divInt_self a]
  rw [Rat.divInt_mul_divInt _ _ (Int.natCast_ne_zero.mpr a.den_nz) h]
  rfl

theorem dneg_eq (a : ℚ) : dneg a = -a := rfl

theorem dabs_eq (a : ℚ) : dabs a = |a| := by
unfold dabs
split_ifs with h
· exact (abs_of_neg h).symm
· exact (abs_of_nonneg (not_lt.mp h)).symm

theorem dtrunc_eq_floor {q : ℚ} (h : 0 ≤ q) : dtrunc q = ((⌊q⌋ : ℤ) : ℚ) := by
have hnum : 0 ≤ q.num := Rat.num_nonneg.mpr h
rw [dtrunc, if_neg (not_lt.mpr h)]
set m := q.num.natAbs with hm
set k := q.den with hk
have hden : 0 < ((k : ℕ) : ℚ) := by
  rw [hk]
  exact_mod_cast q.den_pos
have h1 : ((m : ℕ) : ℚ) = ((q.num : ℤ) : ℚ) := by
  rw [hm, Int.cast_natAbs]
  exact_mod_cast (abs_of_nonneg hnum : |q.num| = q.num)
have hq : ((m : ℕ) : ℚ) / ((k : ℕ) : ℚ) = q := by
  rw [h1, hk]
  exact Rat.num_div_den q
have hfl : ⌊q⌋ = ((m / k : ℕ) : ℤ) := by
  rw [Int.floor_eq_iff]
  constructor
  · rw [← hq, le_div_iff₀ hden]
    exact_mod_cast Nat.div_mul_le_self m k
  · rw [← hq, div_lt_iff₀ hden]
    have e2 : m % k < k := Nat.mod_lt _ (by rw [hk]; exact q.den_pos)
    have e3 : m < (m / k + 1) * k := by
      calc m = k * (m / k) + m % k := (Nat.div_add_mod m k).symm
      _ < k * (m / k) + k := Nat.add_lt_add_left e2 _
      _ = (m / k + 1) * k := by ring
    exact_mod_cast e3
rw [hfl]
norm_cast

theorem dtrunc_zero {q : ℚ} (h0 : 0 ≤ q) (h1 : q < 1) : dtrunc q = 0 := by
rw [dtrunc_eq_floor h0, Int.floor_eq_zero_iff.mpr (Set.mem_Ico.mpr ⟨h0, h1⟩)]
norm_num

theorem in_seconds_pos (u : TimeUnit) : 0 < u.in_seconds := by
cases u <;> decide

theorem from_seconds_eq (u : TimeUnit) : u.from_seconds = u.in_seconds⁻¹ := by
rw [TimeUnit.from_seconds, ddiv_eq, one_div]

theorem from_seconds_pos (u : TimeUnit) : 0 < u.from_seconds := by
rw [from_seconds_eq]
exact inv_pos.mpr (in_seconds_pos u)

theorem in_unit_mul (d : Duration) (u : TimeUnit) : d.in_unit u = d.val * u.from_seconds := by
rw [Duration.in_unit, dmul_eq]

theorem in_unit_nonneg {d : Duration} (h : 0 ≤ d.val) (u : TimeUnit) : 0 ≤ d.in_unit u := by
rw [in_unit_mul]
exact mul_nonneg h (from_seconds_pos u).le

theorem in_unit_add (a b : Duration) (u : TimeUnit) :
    (a + b).in_unit u = a.in_unit u + b.in_unit u := by
show dmul (dadd a.val b.val) u.from_seconds
  = dmul a.val u.from_seconds + dmul b.val u.from_seconds
rw [dmul_eq, dmul_eq, dmul_eq, dadd_eq, add_mul]

theorem in_unit_sub (a b : Duration) (u : TimeUnit) :
    (a - b).in_unit u = a.in_unit u - b.in_unit u := by
show dmul (dsub a.val b.val) u.from_seconds
  = dmul a.val u.from_seconds - dmul b.val u.from_seconds
rw [dmul_eq, dmul_eq, dmul_eq, dsub_eq, sub_mul]

/-! ## Claim theorems -/

/-- C6: unit conversion through `in_unit` distributes exactly over Duration
addition and subtraction: a three-term sum (or difference) of unit-scaled
durations converted to any common unit equals the arithmetic sum (or
difference) of the individually converted terms. -/
theorem c6_unit_conversion_distributes (au bu cu u : TimeUnit) (x y z : ℚ) :
    ((au.mulF64 x + bu.mulF64 y + cu.mulF64 z).in_unit u
      = (au.mulF64 x).in_unit u + (bu.mulF64 y).in_unit u + (cu.mulF64 z).in_unit u) ∧
    ((au.mulF64 x - bu.mulF64 y - cu.mulF64 z).in_unit u
      = (au.mulF64 x).in_unit u - (bu.mulF64 y).in_unit u - (cu.mulF64 z).in_unit u) := by
constructor
· rw [in_unit_add, in_unit_add]
· rw [in_unit_sub, in_unit_sub]

/-- C4: every numeric kind routes through the same conversion into the
extended-precision scalar, so multiplying a unit by an integer quantity and
by the equal floating quantity produce identical Durations
(e.g. `Day * 10 == Day * 10.0`). -/
theorem c4_representation_independence (u : TimeUnit) (n : ℤ) (m : ℕ) (x y : ℚ)
    (hx : x = (n : ℚ)) (hy : y = (m : ℚ)) :
    u.mulF64 x = u.mulI64 n ∧ u.mulF64 y = u.mulU128 m ∧
    TimeUnit.Day.mulI64 10 = TimeUnit.Day.mulF64 10 := by
subst hx
subst hy
exact ⟨by cases u <;> rfl, by cases u <;> rfl, by decide⟩

/-- Witness for C4 at `Day * 10` and `Hour * 7`. -/
theorem c4_witness :
    TimeUnit.Day.mulF64 ((10 : ℤ) : ℚ) = TimeUnit.Day.mulI64 10 ∧
    TimeUnit.Hour.mulF64 ((7 : ℕ) : ℚ) = TimeUnit.Hour.mulU128 7 :=
⟨(c4_representation_independence TimeUnit.Day 10 7 ((10 : ℤ) : ℚ) ((7 : ℕ) : ℚ) rfl rfl).1,
 (c4_representation_independence TimeUnit.Hour 10 7 ((10 : ℤ) : ℚ) ((7 : ℕ) : ℚ) rfl rfl).2.1⟩

/-- C2: the default renderer reproduces the four reference outputs byte for
byte. -/
theorem c2_reference_renders :
    render (TimeUnit.Day.mulI64 10 + TimeUnit.Hour.mulI64 5) = "10 days 5 h 0 min 0 s" ∧
    render (TimeUnit.Hour.mulI64 5 + TimeUnit.Millisecond.mulI64 256) = "5 h 0 min 0 s 256 ms" ∧
    render (TimeUnit.Hour.mulI64 (-5) + TimeUnit.Millisecond.mulI64 (-256)) = "-5 h 0 min 0 s 256 ms" ∧
    render (TimeUnit.Nanosecond.mulU128 1286495254000000123) = "14889 days 23 h 47 min 34 s 0 ms 123 ns" :=
⟨by decide, by decide, by decide, by decide⟩

/-- C5 (failing evaluation): the negative duration
`Millisecond * -256 + Nanosecond * -100` is rendered with two minus signs,
because the final branch of the renderer never updates `print_all` after the
millisecond field, so the nanosecond field is printed with its own sign. -/
theorem c5_two_signs_eval :
    durMsNs.val < 0 ∧
    render durMsNs = "-256 ms -100 ns" ∧
    (render durMsNs).data.count '-' = 2 :=
⟨by decide, by decide, by decide⟩

/-- C8 (counterexample): fractional construction with a zero denominator is
not signalled as an error; it silently yields an infinite value (here the
forced-negative constructor makes it a negative infinity even though the
numerator is positive). -/
theorem c8_counterexample : from_fraction 1 0 TimeUnit.Second = some (DecimalE.inf true) := by
decide

/-- C8 (amended): for every numerator other than `i64::MIN`, a zero
denominator silently produces a non-finite Duration value — NaN when the
numerator is zero, a (negative) infinity otherwise — and no error kind
exists anywhere on this path. -/
theorem c8_zero_denominator_silent (n : ℤ) (u : TimeUnit) (h : n ≠ i64Min) :
    from_fraction n 0 u = some (if n = 0 then DecimalE.nan else DecimalE.inf true) := by
have h1 : i64AbsU128 n = some n.natAbs := by rw [i64AbsU128, if_neg h]
have h2 : i64AbsU128 0 = some 0 := by decide
have hc : ¬ ((n < 0 ∧ (0:ℤ) < 0) ∨ (0 < n ∧ (0:ℤ) < 0)) := by omega
rw [from_fraction, h1, h2]
simp only [if_neg hc]
rcases eq_or_ne n 0 with h0 | h0
· subst h0
  rfl
· have hna : n.natAbs ≠ 0 := Int.natAbs_ne_zero.mpr h0
  rw [if_neg h0, Fraction.new_neg, if_pos rfl, if_neg hna]
  rfl

/-- Witness for C8 at numerator 3 and unit Day. -/
theorem c8_witness :
    (3 : ℤ) ≠ i64Min ∧
    from_fraction 3 0 TimeUnit.Day = some (if (3 : ℤ) = 0 then DecimalE.nan else DecimalE.inf true) :=
⟨by decide, c8_zero_denominator_silent 3 TimeUnit.Day (by decide)⟩

/-- C1 (counterexample): at the repository's own test input
`Hour * -5 + Millisecond * -256`, the days component computed by the
renderer is `0`, whereas flooring toward negative infinity would give `-1`;
the rendered string (which matches the repository's test expectation)
confirms truncation toward zero. -/
theorem c1_counterexample :
    dispDays durC1neg ≠ ((⌊durC1neg.in_unit TimeUnit.Day⌋ : ℤ) : ℚ) ∧
    render durC1neg = "-5 h 0 min 0 s 256 ms" := by
constructor
· have h1 : dispDays durC1neg = 0 := by decide
  have h2 : ⌊durC1neg.in_unit TimeUnit.Day⌋ = -1 := by decide
  rw [h1, h2]
  norm_num
· decide

/-- C1 (amended): for every nonnegative Duration the renderer's components
satisfy exactly the floor-and-subtract formulas of the specification (on
nonnegative values the collaborator's truncation toward zero coincides with
the floor toward negative infinity). -/
theorem c1_floor_decomposition (d : Duration) (h : 0 ≤ d.val) : C1Concl d := by
have key : ∀ u : TimeUnit, dtrunc (d.in_unit u) = ((⌊d.in_unit u⌋ : ℤ) : ℚ) := fun u =>
  dtrunc_eq_floor (in_unit_nonneg h u)
refine ⟨?_, ?_, ?_, ?_, ?_, ?_⟩
· rw [dispDays, key]
· rw [dispHours, dsub_eq, dmul_eq, dispDays, key, key]
· rw [dispMinutes, dsub_eq, dmul_eq, key, key]
· rw [dispSeconds, dsub_eq, dmul_eq, key, key]
· rw [dispMilli, dsub_eq, dmul_eq, key, key]
· rw [dispNano, dsub_eq, dmul_eq, key]

/-- Witness for C1 at `Hour * 5 + Millisecond * 256`. -/
theorem c1_witness : 0 ≤ durC1pos.val ∧ C1Concl durC1pos :=
⟨by decide, c1_floor_decomposition durC1pos (by decide)⟩

/-- Evaluation of `from_fraction` away from the zero denominator and the
`i64::MIN` magnitudes: it returns the finite scalar described by the
specification's sign rule. -/
theorem from_fraction_eval (n d : ℤ) (u : TimeUnit) (hn : n ≠ i64Min) (hd : d ≠ i64Min)
    (hd0 : d ≠ 0) : from_fraction n d u = some (DecimalE.fin (ffValue n d u)) := by
have h1 : i64AbsU128 n = some n.natAbs := by rw [i64AbsU128, if_neg hn]
have h2 : i64AbsU128 d = some d.natAbs := by rw [i64AbsU128, if_neg hd]
have hdn : d.natAbs ≠ 0 := Int.natAbs_ne_zero.mpr hd0
have hmk : mkRat (n.natAbs : ℤ) d.natAbs = (n.natAbs : ℚ) / (d.natAbs : ℚ) := by
  rw [Rat.mkRat_eq_div, Int.cast_natCast]
rw [from_fraction, h1, h2]
show (if (n < 0 ∧ d < 0) ∨ (0 < n ∧ 0 < d)
  then some ((Fraction.new n.natAbs d.natAbs).mulScalar u.in_seconds)
  else some ((Fraction.new_neg n.natAbs d.natAbs).mulScalar u.in_seconds))
  = some (DecimalE.fin (ffValue n d u))
by_cases hc : (n < 0 ∧ d < 0) ∨ (0 < n ∧ 0 < d)
· rw [if_pos hc, Fraction.new, if_neg hdn]
  show some (DecimalE.fin (dmul (mkRat (n.natAbs : ℤ) d.natAbs) u.in_seconds)) = _
  rw [dmul_eq, hmk, ffValue, if_pos hc, one_mul]
· rw [if_neg hc, Fraction.new_neg, if_neg hdn]
  show some (DecimalE.fin (dmul (dneg (mkRat (n.natAbs : ℤ) d.natAbs)) u.in_seconds)) = _
  rw [dneg_eq, dmul_eq, hmk, ffValue, if_neg hc]
  ring_nf

/-- C3 (counterexample): at numerator 0 and denominator -1, exactly one of
the two arguments is negative, so the claim requires a strictly negative
result; but the constructed scalar is 0, which is not negative (the code
routes every zero numerator through the forced-negative constructor, and the
resulting value `-0` equals `0`). -/
theorem c3_counterexample :
    from_fraction 0 (-1) TimeUnit.Second = some (DecimalE.fin (ffValue 0 (-1) TimeUnit.Second)) ∧
    ffValue 0 (-1) TimeUnit.Second = 0 ∧
    ¬ ffValue 0 (-1) TimeUnit.Second < 0 := by
have hv : ffValue 0 (-1) TimeUnit.Second = 0 := by
  rw [ffValue]
  norm_num
refine ⟨?_, hv, ?_⟩
· rw [hv]
  decide
· rw [hv]
  norm_num

theorem mul_pos_iff_right {a s : ℚ} (hs : 0 < s) : 0 < a * s ↔ 0 < a :=
⟨fun h => by nlinarith, fun h => mul_pos h hs⟩

theorem mul_neg_iff_right {a s : ℚ} (hs : 0 < s) : a * s < 0 ↔ a < 0 :=
⟨fun h => by nlinarith, fun h => mul_neg_of_neg_of_pos h hs⟩

/-- C3 (amended): for i64 arguments away from `i64::MIN` with a nonzero
denominator, `from_fraction` produces exactly the finite scalar
`sign * (|n|/|d|) * unit.in_seconds()`; the result is positive exactly when
`n ≠ 0` and both arguments are strictly negative or both strictly positive,
negative exactly when `n ≠ 0` and the constructor condition fails (which
includes the case `n = 0` with the value then being zero), and construction
is symmetric under negating both arguments and antisymmetric under negating
the denominator. -/
theorem c3_sign_rule (n d : ℤ) (u : TimeUnit)
    (hn1 : i64Min < n) (hn2 : n < 9223372036854775808)
    (hd1 : i64Min < d) (hd2 : d < 9223372036854775808)
    (hd0 : d ≠ 0) : C3Concl n d u := by
have hn : n ≠ i64Min := ne_of_gt hn1
have hd : d ≠ i64Min := ne_of_gt hd1
have hnn : -n ≠ i64Min := by rw [i64Min] at *; omega
have hnd : -d ≠ i64Min := by rw [i64Min] at *; omega
have hnd0 : -d ≠ 0 := neg_ne_zero.mpr hd0
have hs : 0 < u.in_seconds := in_seconds_pos u
have hdpos : (0:ℚ) < (d.natAbs : ℚ) := by
  have h0 : d.natAbs ≠ 0 := Int.natAbs_ne_zero.mpr hd0
  exact_mod_cast Nat.pos_of_ne_zero h0
have hxnn : (0:ℚ) ≤ (n.natAbs : ℚ) / (d.natAbs : ℚ) := by positivity
have hx_pos_iff : (0:ℚ) < (n.natAbs : ℚ) / (d.natAbs : ℚ) ↔ n ≠ 0 := by
  constructor
  · intro h hn0
    subst hn0
    norm_num at h
  · intro h
    apply div_pos _ hdpos
    exact_mod_cast Nat.pos_of_ne_zero (Int.natAbs_ne_zero.mpr h)
refine ⟨from_fraction_eval n d u hn hd hd0, ?_, ?_, ?_, ?_⟩
· rw [ffValue]
  by_cases hc : (n < 0 ∧ d < 0) ∨ (0 < n ∧ 0 < d)
  · rw [if_pos hc, one_mul, mul_pos_iff_right hs, hx_pos_iff]
    exact ⟨fun h => ⟨h, hc⟩, fun h => h.1⟩
  · rw [if_neg hc, neg_one_mul, mul_pos_iff_right hs]
    constructor
    · intro h
      exact absurd (neg_pos.mp h) (not_lt.mpr hxnn)
    · rintro ⟨-, hcc⟩
      exact absurd hcc hc
· rw [ffValue]
  by_cases hc : (n < 0 ∧ d < 0) ∨ (0 < n ∧ 0 < d)
  · rw [if_pos hc, one_mul, mul_neg_iff_right hs]
    constructor
    · intro h
      exact absurd h (not_lt.mpr hxnn)
    · rintro ⟨-, hnc⟩
      exact absurd hc hnc
  · rw [if_neg hc, neg_one_mul, mul_neg_iff_right hs, neg_lt_zero, hx_pos_iff]
    exact ⟨fun h => ⟨h, hc⟩, fun h => h.1⟩
· have h4 := from_fraction_eval (-n) (-d) u hnn hnd hnd0
  have hval : ffValue (-n) (-d) u = ffValue n d u := by
    have hiff : ((-n < 0 ∧ -d < 0) ∨ (0 < -n ∧ 0 < -d)) ↔ ((n < 0 ∧ d < 0) ∨ (0 < n ∧ 0 < d)) := by
      omega
    rw [ffValue, ffValue, Int.natAbs_neg, Int.natAbs_neg, if_congr hiff rfl rfl]
  rw [h4, hval]
· have h5 := from_fraction_eval n (-d) u hn hnd hnd0
  have hval : ffValue n (-d) u = -(ffValue n d u) := by
    by_cases hn0 : n = 0
    · subst hn0
      simp [ffValue]
    · have hc' : ((n < 0 ∧ -d < 0) ∨ (0 < n ∧ 0 < -d)) ↔ ¬((n < 0 ∧ d < 0) ∨ (0 < n ∧ 0 < d)) := by
        omega
      rw [ffValue, ffValue, Int.natAbs_neg]
      by_cases hc : (n < 0 ∧ d < 0) ∨ (0 < n ∧ 0 < d)
      · rw [if_pos hc, if_neg (fun h => (hc'.mp h) hc)]
        ring
      · rw [if_neg hc, if_pos (hc'.mpr hc)]
        ring
  rw [h5, hval]

/-- Witness for C3 at `from_fraction(-3, 4, Hour)`. -/
theorem c3_witness :
    (i64Min < (-3 : ℤ)) ∧ ((-3 : ℤ) < 9223372036854775808) ∧
    (i64Min < (4 : ℤ)) ∧ ((4 : ℤ) < 9223372036854775808) ∧ ((4 : ℤ) ≠ 0) ∧
    C3Concl (-3) 4 TimeUnit.Hour :=
⟨by decide, by decide, by decide, by decide, by decide,
 c3_sign_rule (-3) 4 TimeUnit.Hour (by decide) (by decide) (by decide) (by decide) (by decide)⟩

/-- C10: on the i64 range with both arguments different from `i64::MIN` and a
nonzero denominator, both magnitude computations succeed and `from_fraction`
totally returns an ordinary finite Duration value. -/
theorem c10_safe_range_total (n d : ℤ) (u : TimeUnit)
    (hn1 : i64Min < n) (hn2 : n < 9223372036854775808)
    (hd1 : i64Min < d) (hd2 : d < 9223372036854775808)
    (hd0 : d ≠ 0) : C10Concl n d u := by
have hn : n ≠ i64Min := ne_of_gt hn1
have hd : d ≠ i64Min := ne_of_gt hd1
refine ⟨by rw [i64AbsU128, if_neg hn], by rw [i64AbsU128, if_neg hd], ?_⟩
rw [from_fraction_finite, from_fraction_eval n d u hn hd hd0]

/-- Witness for C10 at `from_fraction(7, -3, Minute)`. -/
theorem c10_witness :
    (i64Min < (7 : ℤ)) ∧ ((7 : ℤ) < 9223372036854775808) ∧
    (i64Min < (-3 : ℤ)) ∧ ((-3 : ℤ) < 9223372036854775808) ∧ ((-3 : ℤ) ≠ 0) ∧
    C10Concl 7 (-3) TimeUnit.Minute :=
⟨by decide, by decide, by decide, by decide, by decide,
 c10_safe_range_total 7 (-3) TimeUnit.Minute (by decide) (by decide) (by decide) (by decide) (by decide)⟩

theorem str_empty_append (s : String) : "" ++ s = s := by
obtain ⟨data⟩ := s
rfl

/-- C7: the scientific/auto-unit renderer picks exactly one unit from the
absolute value of the stored seconds by the documented thresholds
(1e-5, 1e-2, 180, 3600, 86400) and prints the correspondingly scaled value
with that single unit suffix. -/
theorem c7_threshold_table (d : Duration) : C7Concl d := by
have hm1 : (mkRat 1 100000 : ℚ) = 1 / 100000 := by
  rw [Rat.mkRat_eq_div]
  norm_num
have hm2 : (mkRat 1 100 : ℚ) = 1 / 100 := by
  rw [Rat.mkRat_eq_div]
  norm_num
have h180 : dmul (3 : ℚ) 60 = (180 : ℚ) := by decide
unfold C7Concl
simp only [renderLowerExp, dabs_eq, hm1, hm2, SECONDS_PER_MINUTE, SECONDS_PER_HOUR,
  SECONDS_PER_DAY, h180]
refine ⟨?_, ?_, ?_, ?_, ?_, ?_⟩
· intro h1
  rw [if_pos h1]
· intro h1 h2
  rw [if_neg h1, if_pos h2]
· intro h1 h2
  have h0 : ¬ |d.val| < 1 / 100000 := fun h => h1 (lt_trans h (by norm_num))
  rw [if_neg h0, if_neg h1, if_pos h2]
· intro h1 h2
  have hb : ¬ |d.val| < 1 / 100 := fun h => h1 (lt_trans h (by norm_num))
  have h0 : ¬ |d.val| < 1 / 100000 := fun h => hb (lt_trans h (by norm_num))
  rw [if_neg h0, if_neg hb, if_neg h1, if_pos h2]
· intro h1 h2
  have hc : ¬ |d.val| < 180 := fun h => h1 (lt_trans h (by norm_num))
  have hb : ¬ |d.val| < 1 / 100 := fun h => hc (lt_trans h (by norm_num))
  have h0 : ¬ |d.val| < 1 / 100000 := fun h => hb (lt_trans h (by norm_num))
  rw [if_neg h0, if_neg hb, if_neg hc, if_neg h1, if_pos h2]
· intro h1
  have hd : ¬ |d.val| < 3600 := fun h => h1 (lt_trans h (by norm_num))
  have hc : ¬ |d.val| < 180 := fun h => hd (lt_trans h (by norm_num))
  have hb : ¬ |d.val| < 1 / 100 := fun h => hc (lt_trans h (by norm_num))
  have h0 : ¬ |d.val| < 1 / 100000 := fun h => hb (lt_trans h (by norm_num))
  rw [if_neg h0, if_neg hb, if_neg hc, if_neg hd, if_neg h1]

/-- Witness for C7 on three representative magnitudes (10 s, 1 µs, 100000 s). -/
theorem c7_witness :
    renderLowerExp (Duration.from_seconds 10) = decRepr (10 : ℚ) ++ " s" ∧
    renderLowerExp (Duration.from_seconds (mkRat 1 1000000))
      = decRepr (dmul (mkRat 1 1000000) 1000000000) ++ " ns" ∧
    renderLowerExp (Duration.from_seconds 100000) = decRepr (ddiv (100000 : ℚ) 86400) ++ " days" :=
⟨(c7_threshold_table (Duration.from_seconds 10)).2.2.1 (by norm_num [Duration.from_seconds])
    (by norm_num [Duration.from_seconds]),
 (c7_threshold_table (Duration.from_seconds (mkRat 1 1000000))).1
    (by
      show |(mkRat 1 1000000 : ℚ)| < 1 / 100000
      rw [show (mkRat 1 1000000 : ℚ) = 1 / 1000000 from by rw [Rat.mkRat_eq_div]; norm_num]
      rw [abs_of_pos (by norm_num)]
      norm_num),
 (c7_threshold_table (Duration.from_seconds 100000)).2.2.2.2.2
    (by norm_num [Duration.from_seconds])⟩

/-- C9: a strictly positive Duration below one second renders with only
millisecond and/or nanosecond components: no day, hour, minute or second
field appears in the output. -/
theorem c9_subsecond_render (d : Duration) (h0 : 0 < d.val) (h1 : d.val < 1) : C9Concl d := by
have hz : ∀ u : TimeUnit, u.from_seconds ≤ 1 → dtrunc (d.in_unit u) = 0 := by
  intro u hu
  apply dtrunc_zero (in_unit_nonneg h0.le u)
  rw [in_unit_mul]
  calc d.val * u.from_seconds ≤ d.val * 1 := mul_le_mul_of_nonneg_left hu h0.le
  _ = d.val := mul_one _
  _ < 1 := h1
have htD : dtrunc (d.in_unit TimeUnit.Day) = 0 := hz _ (by decide)
have htH : dtrunc (d.in_unit TimeUnit.Hour) = 0 := hz _ (by decide)
have htM : dtrunc (d.in_unit TimeUnit.Minute) = 0 := hz _ (by decide)
have htS : dtrunc (d.in_unit TimeUnit.Second) = 0 := hz _ (by decide)
have hd0 : dispDays d = 0 := htD
have hh0 : dispHours d = 0 := by
  rw [dispHours, htH, dispDays, htD]
  decide
have hm0 : dispMinutes d = 0 := by
  rw [dispMinutes, htM, htH]
  decide
have hs0 : dispSeconds d = 0 := by
  rw [dispSeconds, htS, htM]
  decide
have hMilli : dispMilli d = dtrunc (d.in_unit TimeUnit.Millisecond) := by
  rw [dispMilli, htS, dsub_eq, dmul_eq]
  ring
have hnz : ¬ (dabs (dispMilli d) = 0 ∧ dabs (dispNano d) = 0) := by
  rintro ⟨hma, hna⟩
  rw [dabs_eq, abs_eq_zero] at hma hna
  rw [hMilli] at hma
  rw [dispNano, hma, dsub_eq, dmul_eq, zero_mul, sub_zero, in_unit_mul] at hna
  have hfspos := from_seconds_pos TimeUnit.Nanosecond
  nlinarith
have hneg : decide (d.val < 0) = false := decide_eq_false (not_lt.mpr h0.le)
have hb0 : decide (0 < dabs (0 : ℚ)) = false := by decide
unfold C9Concl
simp only [render, hd0, hh0, hm0, hs0, hneg, hb0, Bool.false_or, Bool.or_false, Bool.or_self,
  Bool.false_and, Bool.and_self, Bool.false_eq_true, false_and, false_or, if_false,
  if_neg hnz, ite_false, str_empty_append]
by_cases hnano : dispNano d = 0
· left
  rw [if_pos (Or.inl hnano)]
· rw [if_neg (by simp [hnano])]
  by_cases hmilli : dispMilli d = 0
  · right
    right
    have hbm : decide (0 < dabs (dispMilli d)) = false := by
      rw [hmilli]
      decide
    simp [hbm, str_empty_append]
  · right
    left
    have hbm : decide (0 < dabs (dispMilli d)) = true := by
      apply decide_eq_true
      rw [dabs_eq]
      exact abs_pos.mpr hmilli
    simp [hbm, str_empty_append]

/-- Witness for C9 at the 500 nanosecond duration, which renders as
`"500 ns"`. -/
theorem c9_witness :
    0 < (TimeUnit.Nanosecond.mulI64 500).val ∧ (TimeUnit.Nanosecond.mulI64 500).val < 1 ∧
    C9Concl (TimeUnit.Nanosecond.mulI64 500) :=
⟨by decide, by decide, c9_subsecond_render (TimeUnit.Nanosecond.mulI64 500) (by decide) (by decide)⟩

/-- The concrete 500 nanosecond rendering from the C9 analysis: no second or
coarser field is printed. -/
theorem render_500ns : render (TimeUnit.Nanosecond.mulI64 500) = "500 ns" := by decide

end Hifitime
